import Mathlib

/-!
Verification of the call-graph exploration client (frontend `App.jsx` and the
API helper module) against its natural-language specification.  The JavaScript
source is shallowly embedded: each React state update or pure helper becomes a
Lean function over an explicit state record, and asynchronous completions
become explicit events applied to the state.
-/

namespace CpgExplorer

/-- A graph node as delivered by the backend: `id` is the identity, all other
fields are optional display metadata (`file`/`line`/`package` may be absent). -/
structure Node where
  id : String
  name : Option String := none
  package : Option String := none
  file : Option String := none
  line : Option Nat := none
deriving Repr, DecidableEq

/-- A directed edge between node ids, as in the backend subgraph payload. -/
structure Edge where
  source : String
  target : String
deriving Repr, DecidableEq

/-- The subgraph payload of `GET /api/function/<id>/subgraph`:
`\x7b root, nodes, edges \x7d`. -/
structure Subgraph where
  root : Node
  nodes : List Node
  edges : List Edge
deriving Repr, DecidableEq

/-- The source payload of `GET /api/source?file=...`: `\x7b content \x7d`. -/
structure SourceDoc where
  content : String
deriving Repr, DecidableEq

/-- Outcome of an asynchronous backend fetch: the resolved value, or the
message of the thrown `Error`. -/
inductive FetchResult (α : Type) where
  | ok (val : α)
  | err (msg : String)
deriving Repr, DecidableEq

/-! ## The `request` helper (api.js)

```js
async function request(path) {
  const res = await fetch(`...`);
  if (!res.ok) {
    const text = await res.text();
    throw new Error(text || `Request failed: ${res.status}`);
  }
  return res.json();
}
```

`res.ok` is the fetch API's success predicate: `status` in 200..299.  The
embedding abstracts the response as its status and body text; a thrown error
is the `Except.error` branch carrying the message, and a success returns the
body (JSON parsing is outside this core). -/

/-- The fetch API's `res.ok`: status in the inclusive range 200..299. -/
def respOk (status : Nat) : Bool :=
  200 ≤ status && status ≤ 299

/-- Embedding of `request`: on a non-ok status it throws the body text if
non-empty, else the synthesized `"Request failed: <status>"`; on an ok status
it returns the body. -/
def request (status : Nat) (body : String) : Except String String :=
  if respOk status then
    Except.ok body
  else
    Except.error (if body = "" then "Request failed: " ++ toString status else body)

/-! ## SourceView (App.jsx lines 5..26)

```js
function SourceView({ content, highlightLine }) {
  if (!content) {
    return <div className="empty">Select a function to view source.</div>;
  }
  const lines = content.split('\n');
  return ... lines.map((line, idx) => {
    const lineNumber = idx + 1;
    const isHighlight = highlightLine === lineNumber;
    ... <span>{lineNumber}</span><span>{line || ' '}</span> ...
  });
}
```

The render result is embedded as either the placeholder or the ordered list
of rendered lines, each carrying its displayed number, its text (an empty
line renders as a single space, mirroring `line || ' '`), and its highlight
flag.  `!content` is true for JavaScript `undefined`/`null` (absent) and for
the empty string alike. -/

/-- One rendered source line: displayed number, displayed text (as its
character sequence), highlight flag. -/
structure RenderedLine where
  number : Nat
  text : List Char
  highlighted : Bool
deriving Repr, DecidableEq

/-- The render output of `SourceView`: the selection-prompt placeholder, or a
list of rendered lines. -/
inductive SourceRender where
  | placeholder
  | lines (ls : List RenderedLine)
deriving Repr, DecidableEq

/-- JavaScript `content.split('\n')` on the content's character sequence:
splits into the (possibly empty) segments between newline characters; the
empty sequence splits into one empty segment, as `''.split('\n')` yields
`['']`. -/
def splitLines : List Char → List (List Char)
  | [] => [[]]
  | ch :: rest =>
      let r := splitLines rest
      if ch = '\n' then [] :: r
      else
        match r with
        | [] => [[ch]]
        | l :: ls => (ch :: l) :: ls

/-- The `lines.map((line, idx) => ...)` body, with the running index `idx`
made explicit: the displayed line number is `idx + 1`, the highlight flag is
`highlightLine === lineNumber`, and an empty line's text renders as a single
space (`line || ' '`). -/
def renderLinesFrom (highlightLine : Option Nat) (idx : Nat) :
    List (List Char) → List RenderedLine
  | [] => []
  | line :: rest =>
      { number := idx + 1
        text := if line = [] then [' '] else line
        highlighted := highlightLine == some (idx + 1) } ::
        renderLinesFrom highlightLine (idx + 1) rest

/-- Embedding of `SourceView`: absent or empty content (`!content`) renders
the placeholder; otherwise the content is split on newlines and each line is
rendered in order. -/
def sourceView (content : Option String) (highlightLine : Option Nat) :
    SourceRender :=
  match content with
  | none => SourceRender.placeholder
  | some c =>
      if c = "" then SourceRender.placeholder
      else SourceRender.lines (renderLinesFrom highlightLine 0 (splitLines c.data))

/-! ## Exploration state and `loadGraph` (App.jsx lines 28..95)

The `App` component's React state hooks become the fields of one record.
`error` is a string as in the code (initialized to `''`; `setError('')`
clears it); `source` holds the fetched source document, `selected` the
selected node, `graphNodes`/`graphLinks` the `graph` state.

```js
const loadGraph = async (functionId) => {
  setLoading(true);
  setError('');
  try {
    const data = await fetchSubgraph(functionId, depth, limit);
    const links = data.edges.map((edge) => ({ source: edge.source, target: edge.target }));
    setGraph({ nodes: data.nodes, links });
    setSelected(data.root);
    if (data.root?.file) {
      const sourceData = await fetchSource(data.root.file);
      setSource(sourceData);
    } else {
      setSource(null);
    }
  } catch (err) {
    setError(err.message);
  } finally {
    setLoading(false);
  }
};
```

The synchronous prefix (before the first `await`) is `loadGraphStart`; the
continuation that runs once the subgraph fetch settles — including, on
success, the chained source fetch — is `loadGraphResolve`, taking the
outcomes of both fetches as explicit inputs.  A full, non-overlapping call is
their composition `loadGraph`.  Overlapping calls are modelled by applying
two `loadGraphStart`s and then the two `loadGraphResolve`s in the order in
which the responses arrive. -/

/-- The React state of the `App` component (search results, selection, graph,
source, flags, parameters). -/
structure AppState where
  query : String := ""
  results : List Node := []
  selected : Option Node := none
  graphNodes : List Node := []
  graphLinks : List Edge := []
  source : Option SourceDoc := none
  loading : Bool := false
  depth : Nat := 2
  limit : Nat := 60
  error : String := ""
deriving Repr, DecidableEq

/-- `data.edges.map((edge) => (\x7b source: edge.source, target: edge.target \x7d))`. -/
def toLinks (edges : List Edge) : List Edge :=
  edges.map fun e => { source := e.source, target := e.target }

/-- The synchronous prefix of `loadGraph`: `setLoading(true); setError('')`. -/
def loadGraphStart (s : AppState) : AppState :=
  { s with loading := true, error := "" }

/-- The continuation of one `loadGraph` call once its subgraph fetch settles
(`sub`), with the outcome the chained source fetch would have (`src`): on
subgraph success the graph and selection are replaced and, if the root has a
file, the source fetch result is applied (success stores the document, failure
lands in the same `catch`); with no root file the source is cleared.  On any
thrown error the `catch` stores the message; `finally` clears `loading`. -/
def loadGraphResolve (s : AppState) (sub : FetchResult Subgraph)
    (src : FetchResult SourceDoc) : AppState :=
  match sub with
  | FetchResult.err m => { s with error := m, loading := false }
  | FetchResult.ok data =>
      let s1 := { s with
        graphNodes := data.nodes
        graphLinks := toLinks data.edges
        selected := some data.root }
      match data.root.file with
      | some _ =>
          match src with
          | FetchResult.ok doc => { s1 with source := some doc, loading := false }
          | FetchResult.err m => { s1 with error := m, loading := false }
      | none => { s1 with source := none, loading := false }

/-- One complete, non-overlapping `loadGraph(functionId)` call with the given
fetch outcomes. -/
def loadGraph (s : AppState) (sub : FetchResult Subgraph)
    (src : FetchResult SourceDoc) : AppState :=
  loadGraphResolve (loadGraphStart s) sub src

/-! ## The search effect (App.jsx lines 54..71)

```js
useEffect(() => {
  let active = true;
  const handle = setTimeout(() => {
    searchFunctions(query)
      .then((data) => { if (!active) return; setResults(data.results || []); })
      .catch((err) => { if (!active) return; setError(err.message); });
  }, 250);
  return () => { active = false; clearTimeout(handle); };
}, [query]);
```

Two aspects are embedded separately.

Debounce timing: each run of the effect clears the previous run's timer (the
cleanup runs first on a query change) and schedules a fresh one 250 units
later carrying the current query.  `DebounceState` tracks the single pending
timer and the list of search requests actually issued; a timer whose deadline
has passed fires before the next event is processed.

Stale-response guard: each run of the effect owns an `active` flag, set to
`false` by that run's cleanup, which executes exactly when the next run
begins.  Hence a run's flag is `true` iff it is the most recent run.
`SearchState` counts the runs; a response belonging to run `i` is applied
iff `i` is still the newest run. -/

/-- Timer state of the debounced search effect: the pending
`(deadline, query)` timer, if any, and the requests issued so far as
`(time, query)` pairs. -/
structure DebounceState where
  pending : Option (Nat × String)
  fired : List (Nat × String)
deriving Repr, DecidableEq

/-- Fire the pending timer if its deadline is at or before `now` (the
callback runs, issuing the search request with the query it captured). -/
def flushTimer (s : DebounceState) (now : Nat) : DebounceState :=
  match s.pending with
  | some p =>
      if p.1 ≤ now then { pending := none, fired := s.fired ++ [p] } else s
  | none => s

/-- A query input event at time `now`: any timer already due has fired; the
cleanup of the previous effect run clears the pending timer; the new run
schedules a timer 250 units out carrying the new query. -/
def debounceInput (s : DebounceState) (now : Nat) (q : String) : DebounceState :=
  let s1 := flushTimer s now
  { s1 with pending := some (now + 250, q) }

/-- Process a chronological list of `(time, query)` input events. -/
def debounceRun (s : DebounceState) (events : List (Nat × String)) :
    DebounceState :=
  events.foldl (fun st e => debounceInput st e.1 e.2) s

/-- Let time advance to `endTime` with no further input: a due timer fires. -/
def debounceFinish (s : DebounceState) (endTime : Nat) : DebounceState :=
  flushTimer s endTime

/-- The last event of a non-empty event list. -/
def lastEvent (e : Nat × String) : List (Nat × String) → Nat × String
  | [] => e
  | f :: rest => lastEvent f rest

/-- A burst of input events: chronological, with each event arriving strictly
less than 250 units after the previous one. -/
def burst : List (Nat × String) → Bool
  | [] => true
  | [_] => true
  | a :: b :: rest =>
      decide (a.1 ≤ b.1) && decide (b.1 < a.1 + 250) && burst (b :: rest)

/-- State relevant to the search stale-response guard: `instCount` counts the
effect runs created so far (one per query value), and the applied results and
error.  A run's `active` flag is set to `false` by its cleanup, which executes
exactly when the next run begins, so run `i` is active iff `i + 1 = instCount`. -/
structure SearchState where
  instCount : Nat
  results : List Node
  error : String
deriving Repr, DecidableEq

/-- A query change: the previous effect run's cleanup executes (its `active`
becomes `false`) and a new run begins. -/
def newSearchRun (s : SearchState) : SearchState :=
  { s with instCount := s.instCount + 1 }

/-- Whether the effect run with index `inst` is still active (its cleanup has
not run): it is the most recent run. -/
def runActive (s : SearchState) (inst : Nat) : Bool :=
  inst + 1 == s.instCount

/-- Arrival of a search response for the request issued by run `inst`:
`if (!active) return;` discards it when the run has been superseded; otherwise
success replaces `results` (`data.results || []`) and failure sets `error`. -/
def searchResponse (s : SearchState) (inst : Nat)
    (r : FetchResult (List Node)) : SearchState :=
  if runActive s inst then
    match r with
    | FetchResult.ok rs => { s with results := rs }
    | FetchResult.err m => { s with error := m }
  else s

/-! ## nodePaint role classification (App.jsx lines 113..140)

```js
const isCaller = graph.links.some((link) => link.target === node.id && link.source === selected?.id);
const isCallee = graph.links.some((link) => link.source === selected?.id && link.target === node.id);
let color = '#6cc2ff';
if (node.isSelected) color = '#ffd66b';
else if (isCaller) color = '#ff8f6b';
else if (isCallee) color = '#6bf7b0';
```

where `node.isSelected` is `selected?.id === node.id` (the `graphNodes`
memo).  The four colors are the four visual roles; the embedding names them. -/

/-- The four visual roles a rendered node can take, one per color constant. -/
inductive Role where
  | selectedRole
  | caller
  | callee
  | defaultRole
deriving Repr, DecidableEq

/-- `selected?.id === node.id` (the `isSelected` field computed in the
`graphNodes` memo). -/
def isSelectedFlag (selected : Option Node) (node : Node) : Bool :=
  match selected with
  | some s => s.id == node.id
  | none => false

/-- The `isCaller` test as written in the code:
`link.target === node.id && link.source === selected?.id`. -/
def isCallerFlag (links : List Edge) (selected : Option Node) (node : Node) :
    Bool :=
  links.any fun l =>
    l.target == node.id &&
      (match selected with
       | some s => l.source == s.id
       | none => false)

/-- The `isCallee` test as written in the code:
`link.source === selected?.id && link.target === node.id`. -/
def isCalleeFlag (links : List Edge) (selected : Option Node) (node : Node) :
    Bool :=
  links.any fun l =>
    (match selected with
     | some s => l.source == s.id
     | none => false) && l.target == node.id

/-- The role (color) `nodePaint` assigns to a node, in the code's precedence
order: selected, else `isCaller`, else `isCallee`, else the default color. -/
def paintRole (links : List Edge) (selected : Option Node) (node : Node) :
    Role :=
  if isSelectedFlag selected node then Role.selectedRole
  else if isCallerFlag links selected node then Role.caller
  else if isCalleeFlag links selected node then Role.callee
  else Role.defaultRole

/-- Modelled from the spec: a node is a caller of the selected node when
there exists an edge from the node to the selected node (`x → selected` with
`x = node`).  This is the spec's §4.6 definition, stated for comparison with
the code's `isCallerFlag`. -/
def specIsCaller (links : List Edge) (selected : Option Node) (node : Node) :
    Bool :=
  links.any fun l =>
    l.source == node.id &&
      (match selected with
       | some s => l.target == s.id
       | none => false)

/-- Well-formedness of a backend subgraph per the spec's §3 invariant: every
edge's source and target ids appear among the subgraph's nodes. -/
def subgraphWellFormed (g : Subgraph) : Bool :=
  g.edges.all fun e =>
    (g.nodes.any fun n => n.id == e.source) &&
      (g.nodes.any fun n => n.id == e.target)

/-! ## Concrete fixtures used in counterexamples and witnesses -/

/-- The component's initial React state (all `useState` defaults). -/
def initialState : AppState := {}

/-- A node with id `"A"` and no source position. -/
def rootA : Node := { id := "A" }

/-- A node with id `"B"` and no source position. -/
def rootB : Node := { id := "B" }

/-- A trivial subgraph rooted at `rootA`. -/
def subA : Subgraph := { root := rootA, nodes := [rootA], edges := [] }

/-- A trivial subgraph rooted at `rootB`. -/
def subB : Subgraph := { root := rootB, nodes := [rootB], edges := [] }

/-- A node with id `"B"` that carries a source file. -/
def rootBFile : Node := { id := "B", file := some "new.go", line := some 3 }

/-- A subgraph rooted at `rootBFile`. -/
def subBFile : Subgraph := { root := rootBFile, nodes := [rootBFile], edges := [] }

/-- A source document from a previously selected, unrelated file. -/
def oldDoc : SourceDoc := { content := "old file contents" }

/-- A state in which a subgraph for `rootA` is successfully loaded together
with a source document. -/
def loadedStateA : AppState :=
  { initialState with
      selected := some rootA
      graphNodes := [rootA]
      graphLinks := []
      source := some oldDoc }

/-- A subgraph whose single edge points at a node id absent from `nodes`,
violating the backend subgraph invariant. -/
def danglingSub : Subgraph :=
  { root := rootA
    nodes := [rootA]
    edges := [{ source := "A", target := "ghost" }] }

/-! ## Claims -/

/-- Claim C8: for every backend response with a non-success status, `request`
raises an error whose message is the response body when the body is
non-empty, and otherwise the synthesized string `"Request failed: <status>"`
containing the numeric status; no error is raised for a success status. -/
theorem request_error_spec (status : Nat) (body : String) :
    ((200 ≤ status ∧ status ≤ 299) → request status body = Except.ok body) ∧
    (¬(200 ≤ status ∧ status ≤ 299) →
      (body ≠ "" → request status body = Except.error body) ∧
      (body = "" → request status body =
        Except.error ("Request failed: " ++ toString status))) := by
  constructor
  · intro h
    have hok : respOk status = true := by
      simp [respOk]
      omega
    simp [request, hok]
  · intro h
    have hok : respOk status = false := by
      simp [respOk]
      omega
    refine ⟨fun hb => ?_, fun hb => ?_⟩ <;> simp [request, hok, hb]

/-- Witness for C8 at status 404 with an empty body and status 200 with a
non-empty body. -/
theorem request_error_spec_witness :
    request 404 "" = Except.error ("Request failed: " ++ toString 404) ∧
    request 200 "hello" = Except.ok "hello" :=
  ⟨(request_error_spec 404 "").2 (by omega) |>.2 rfl,
   (request_error_spec 200 "hello").1 (by omega)⟩

/-- Claim C10: for the empty-string content (not only absent content),
`SourceView` renders the selection-prompt placeholder and no line list, so an
empty source document is indistinguishable from no source document at the
component's interface. -/
theorem empty_content_renders_placeholder (highlightLine : Option Nat) :
    sourceView (some "") highlightLine = SourceRender.placeholder ∧
    sourceView (some "") highlightLine = sourceView none highlightLine := by
  exact ⟨rfl, rfl⟩

/-- Claim C3: from any state with a successfully loaded subgraph for node
`a` (held in `selected`, which `loadGraph` sets to the loaded root), a
subsequent `selectNode` whose neighborhood fetch fails leaves the selection,
the graph (nodes and links, hence the subgraph root), and the loaded source
unchanged, sets the error message, and sets `loading` to `false`. -/
theorem failed_select_preserves_state (s : AppState) (a : Node) (m : String)
    (src : FetchResult SourceDoc) (h : s.selected = some a) :
    (loadGraph s (FetchResult.err m) src).selected = some a ∧
    (loadGraph s (FetchResult.err m) src).graphNodes = s.graphNodes ∧
    (loadGraph s (FetchResult.err m) src).graphLinks = s.graphLinks ∧
    (loadGraph s (FetchResult.err m) src).source = s.source ∧
    (loadGraph s (FetchResult.err m) src).error = m ∧
    (loadGraph s (FetchResult.err m) src).loading = false := by
  simp [loadGraph, loadGraphStart, loadGraphResolve, h]

/-- Witness for C3: a failing `selectNode("B")` from the loaded state for
`rootA` keeps the `rootA` state intact. -/
theorem failed_select_preserves_state_witness :
    (loadGraph loadedStateA (FetchResult.err "backend down")
        (FetchResult.ok oldDoc)).selected = some rootA ∧
    (loadGraph loadedStateA (FetchResult.err "backend down")
        (FetchResult.ok oldDoc)).graphNodes = loadedStateA.graphNodes ∧
    (loadGraph loadedStateA (FetchResult.err "backend down")
        (FetchResult.ok oldDoc)).graphLinks = loadedStateA.graphLinks ∧
    (loadGraph loadedStateA (FetchResult.err "backend down")
        (FetchResult.ok oldDoc)).source = loadedStateA.source ∧
    (loadGraph loadedStateA (FetchResult.err "backend down")
        (FetchResult.ok oldDoc)).error = "backend down" ∧
    (loadGraph loadedStateA (FetchResult.err "backend down")
        (FetchResult.ok oldDoc)).loading = false :=
  failed_select_preserves_state loadedStateA rootA "backend down"
    (FetchResult.ok oldDoc) rfl

/-- Claim C6: when a search effect run for one query is superseded by a run
for a newer query before the first resolves, the final `results` reflect the
newer query's response in either arrival order, and the older run's response
— success or failure — is discarded without changing the state at all. -/
theorem search_stale_response_guard (s0 : SearchState)
    (fooRes barRes : List Node) (r : FetchResult (List Node)) :
    (searchResponse (searchResponse (newSearchRun (newSearchRun s0))
        (s0.instCount + 1) (FetchResult.ok barRes))
        s0.instCount (FetchResult.ok fooRes)).results = barRes ∧
    (searchResponse (searchResponse (newSearchRun (newSearchRun s0))
        s0.instCount (FetchResult.ok fooRes))
        (s0.instCount + 1) (FetchResult.ok barRes)).results = barRes ∧
    searchResponse (newSearchRun (newSearchRun s0)) s0.instCount r
      = newSearchRun (newSearchRun s0) := by
  have hstale : ∀ s : SearchState, s.instCount = s0.instCount + 2 →
      ∀ r', searchResponse s s0.instCount r' = s := by
    intro s hs r'
    have : runActive s s0.instCount = false := by
      simp [runActive, hs]
    simp [searchResponse, this]
  refine ⟨?_, ?_, hstale _ rfl r⟩
  · rw [hstale _ (by simp [searchResponse, newSearchRun, runActive]) _]
    simp [searchResponse, newSearchRun, runActive]
  · rw [hstale _ rfl]
    simp [searchResponse, newSearchRun, runActive]

/-- Claim C2 (code bug): with node `A` selected and the single edge
`B → A` (so `B` is a caller of `A` in the spec's sense, witnessed by
`specIsCaller`), `nodePaint` classifies `B` as `default`, not `caller`: the
code's `isCaller` tests the edge direction `selected → node` — the same
condition as its `isCallee`, whose branch is therefore dead — so a pure
caller matches neither, while a pure callee (edge `A → C`) takes the
`caller` branch. -/
theorem caller_painted_default :
    specIsCaller [{ source := "B", target := "A" }] (some rootA) rootB = true ∧
    paintRole [{ source := "B", target := "A" }] (some rootA) rootB
      = Role.defaultRole ∧
    paintRole [{ source := "A", target := "C" }] (some rootA) { id := "C" }
      = Role.caller ∧
    isCallerFlag [{ source := "B", target := "A" }] (some rootA) rootB
      = isCalleeFlag [{ source := "B", target := "A" }] (some rootA) rootB := by
  exact ⟨rfl, rfl, rfl, rfl⟩

/-- Claim C5 (corrected): the client performs no validation of the subgraph
invariant.  A subgraph whose edge targets a node id absent from `nodes` is
accepted by `loadGraph` exactly as a well-formed one would be: the graph is
replaced with the ill-formed data and no error is flagged. -/
theorem dangling_edges_silently_rendered :
    subgraphWellFormed danglingSub = false ∧
    (loadGraph initialState (FetchResult.ok danglingSub)
        (FetchResult.ok oldDoc)).graphLinks
      = [{ source := "A", target := "ghost" }] ∧
    (loadGraph initialState (FetchResult.ok danglingSub)
        (FetchResult.ok oldDoc)).error = "" := by
  exact ⟨rfl, rfl, rfl⟩

/-- Amended C5: the consuming client logic applies no well-formedness check
to a fetched subgraph: whatever nodes and edges the backend returns —
including edge sets violating the subgraph invariant — are installed
unchanged as the rendered graph, with the root as selection (the client
trusts the backend invariant). -/
theorem subgraph_installed_unvalidated (s : AppState) (data : Subgraph)
    (src : FetchResult SourceDoc) :
    (loadGraph s (FetchResult.ok data) src).graphNodes = data.nodes ∧
    (loadGraph s (FetchResult.ok data) src).graphLinks = toLinks data.edges ∧
    (loadGraph s (FetchResult.ok data) src).selected = some data.root := by
  cases hf : data.root.file with
  | none => simp [loadGraph, loadGraphStart, loadGraphResolve, hf]
  | some f =>
      cases src with
      | ok doc => simp [loadGraph, loadGraphStart, loadGraphResolve, hf]
      | err m => simp [loadGraph, loadGraphStart, loadGraphResolve, hf]

/-- Claim C4 (corrected): from a state holding the source of a previous,
unrelated file, a `selectNode` whose neighborhood fetch succeeds (root with a
file) but whose chained source fetch fails keeps the new subgraph and
selection, yet leaves the previous file's source document in place — a
non-placeholder render — rather than an empty/placeholder state. -/
theorem stale_source_shown_on_source_failure :
    (loadGraph loadedStateA (FetchResult.ok subBFile)
        (FetchResult.err "source unavailable")).selected = some rootBFile ∧
    (loadGraph loadedStateA (FetchResult.ok subBFile)
        (FetchResult.err "source unavailable")).source = some oldDoc ∧
    some oldDoc ≠ (none : Option SourceDoc) ∧
    sourceView (some oldDoc.content) rootBFile.line ≠ SourceRender.placeholder := by
  refine ⟨rfl, rfl, by simp, ?_⟩
  intro h
  simp [sourceView, oldDoc, rootBFile] at h

/-- Amended C4: when the neighborhood fetch succeeds but the chained source
fetch fails, the new subgraph and selection are kept and remain usable, the
error is set to the source-fetch failure message, and the `source` state is
left unchanged — the previously loaded source document, if any, remains
displayed (it is not replaced by an empty/placeholder state). -/
theorem source_failure_keeps_subgraph (s : AppState) (data : Subgraph)
    (f : String) (m : String) (h : data.root.file = some f) :
    (loadGraph s (FetchResult.ok data) (FetchResult.err m)).selected
      = some data.root ∧
    (loadGraph s (FetchResult.ok data) (FetchResult.err m)).graphNodes
      = data.nodes ∧
    (loadGraph s (FetchResult.ok data) (FetchResult.err m)).graphLinks
      = toLinks data.edges ∧
    (loadGraph s (FetchResult.ok data) (FetchResult.err m)).source = s.source ∧
    (loadGraph s (FetchResult.ok data) (FetchResult.err m)).error = m ∧
    (loadGraph s (FetchResult.ok data) (FetchResult.err m)).loading = false := by
  simp [loadGraph, loadGraphStart, loadGraphResolve, h]

/-- Witness for amended C4 at the concrete fixture. -/
theorem source_failure_keeps_subgraph_witness :
    (loadGraph loadedStateA (FetchResult.ok subBFile)
        (FetchResult.err "boom")).selected = some subBFile.root ∧
    (loadGraph loadedStateA (FetchResult.ok subBFile)
        (FetchResult.err "boom")).graphNodes = subBFile.nodes ∧
    (loadGraph loadedStateA (FetchResult.ok subBFile)
        (FetchResult.err "boom")).graphLinks = toLinks subBFile.edges ∧
    (loadGraph loadedStateA (FetchResult.ok subBFile)
        (FetchResult.err "boom")).source = loadedStateA.source ∧
    (loadGraph loadedStateA (FetchResult.ok subBFile)
        (FetchResult.err "boom")).error = "boom" ∧
    (loadGraph loadedStateA (FetchResult.ok subBFile)
        (FetchResult.err "boom")).loading = false :=
  source_failure_keeps_subgraph loadedStateA subBFile "new.go" "boom" rfl

/-- Claim C1 (corrected): `loadGraph` has no stale-response guard.  With
`selectNode("A")` and `selectNode("B")` both started before either resolves,
resolving B's fetch first and A's fetch last leaves the final selection at
`rootA`, not `rootB`: the older call's late result is applied, not
discarded, contradicting the claim that the final state shows `B` regardless
of resolution order. -/
theorem selection_no_stale_guard :
    (loadGraphResolve
        (loadGraphResolve (loadGraphStart (loadGraphStart initialState))
          (FetchResult.ok subB) (FetchResult.ok oldDoc))
        (FetchResult.ok subA) (FetchResult.ok oldDoc)).selected = some rootA ∧
    rootA.id = "A" ∧
    (loadGraphResolve
        (loadGraphResolve (loadGraphStart (loadGraphStart initialState))
          (FetchResult.ok subB) (FetchResult.ok oldDoc))
        (FetchResult.ok subA) (FetchResult.ok oldDoc)).selected ≠ some rootB := by
  refine ⟨rfl, rfl, ?_⟩
  intro h
  simp [loadGraphResolve, loadGraphStart, subA, subB, rootA, rootB] at h

/-- Amended C1: the final state after two overlapping `selectNode` calls
reflects whichever neighborhood fetch resolves last.  In particular, when
B's successful response is applied after A's response (of either outcome),
the final selection is B's root and the graph is B's subgraph; only in that
arrival order does the final state show `B`. -/
theorem selection_last_resolve_wins (s : AppState) (rA : FetchResult Subgraph)
    (srcA srcB : FetchResult SourceDoc) (dataB : Subgraph) :
    (loadGraphResolve (loadGraphResolve (loadGraphStart (loadGraphStart s)) rA srcA)
        (FetchResult.ok dataB) srcB).selected = some dataB.root ∧
    (loadGraphResolve (loadGraphResolve (loadGraphStart (loadGraphStart s)) rA srcA)
        (FetchResult.ok dataB) srcB).graphNodes = dataB.nodes ∧
    (loadGraphResolve (loadGraphResolve (loadGraphStart (loadGraphStart s)) rA srcA)
        (FetchResult.ok dataB) srcB).graphLinks = toLinks dataB.edges := by
  cases hf : dataB.root.file with
  | none => simp [loadGraphResolve, hf]
  | some f =>
      cases srcB with
      | ok doc => simp [loadGraphResolve, hf]
      | err m => simp [loadGraphResolve, hf]

/-- Helper: processing a burst from a state whose pending timer (if any) is
due strictly after the first event leaves exactly one pending timer — 250
units after the last event, carrying its query — and issues no request. -/
theorem debounceRun_burst (es : List (Nat × String)) :
    ∀ (e : Nat × String) (s : DebounceState),
      burst (e :: es) = true →
      (∀ p, s.pending = some p → e.1 < p.1) →
      debounceRun s (e :: es) =
        { pending := some ((lastEvent e es).1 + 250, (lastEvent e es).2)
          fired := s.fired } := by
  induction es with
  | nil =>
      intro e s _ hp
      show debounceInput s e.1 e.2 = _
      cases h : s.pending with
      | none => simp [debounceInput, flushTimer, h, lastEvent]
      | some p =>
          have hlt := hp p h
          simp [debounceInput, flushTimer, h, Nat.not_le.mpr hlt, lastEvent]
  | cons f rest ih =>
      intro e s hb hp
      have hb' : (e.1 ≤ f.1 ∧ f.1 < e.1 + 250) ∧ burst (f :: rest) = true := by
        simpa [burst, Bool.and_eq_true, decide_eq_true_iff, and_assoc] using hb
      have hstep : debounceRun s (e :: f :: rest)
          = debounceRun (debounceInput s e.1 e.2) (f :: rest) := rfl
      have hfired : (debounceInput s e.1 e.2).fired = s.fired := by
        cases h : s.pending with
        | none => simp [debounceInput, flushTimer, h]
        | some p =>
            have hlt := hp p h
            simp [debounceInput, flushTimer, h, Nat.not_le.mpr hlt]
      have hpend : (debounceInput s e.1 e.2).pending = some (e.1 + 250, e.2) := by
        cases h : s.pending with
        | none => simp [debounceInput, flushTimer, h]
        | some p =>
            have hlt := hp p h
            simp [debounceInput, flushTimer, h, Nat.not_le.mpr hlt]
      rw [hstep, ih f (debounceInput s e.1 e.2) hb'.2 ?_]
      · rw [hfired]
        simp [lastEvent]
      · intro p hp'
        rw [hpend] at hp'
        cases hp'
        exact hb'.1.2

/-- Claim C7: for a burst of query input events each arriving strictly less
than 250 units after the previous one, exactly one search request is issued
— 250 units after the last event, carrying the last event's query — once
time reaches that deadline; every earlier event's pending timer was cancelled
and rescheduled, never fired. -/
theorem debounce_coalesces_burst (e : Nat × String) (es : List (Nat × String))
    (endTime : Nat) (hb : burst (e :: es) = true)
    (hend : (lastEvent e es).1 + 250 ≤ endTime) :
    (debounceFinish
        (debounceRun { pending := none, fired := [] } (e :: es)) endTime).fired
      = [((lastEvent e es).1 + 250, (lastEvent e es).2)] := by
  rw [debounceRun_burst es e { pending := none, fired := [] } hb
    (by intro p hp; simp at hp)]
  simp [debounceFinish, flushTimer, hend]

/-- Witness for C7: events at times 0, 50, 100 with queries growing to
`"abc"`; by time 350 exactly the one request `(350, "abc")` was issued. -/
theorem debounce_coalesces_burst_witness :
    (debounceFinish
        (debounceRun { pending := none, fired := [] }
          [(0, "a"), (50, "ab"), (100, "abc")]) 350).fired = [(350, "abc")] := by
  have h := debounce_coalesces_burst (0, "a") [(50, "ab"), (100, "abc")] 350
    (by decide) (by decide)
  simpa [lastEvent] using h

/-- Helper: `renderLinesFrom` preserves the number of lines. -/
theorem renderLinesFrom_length (h : Option Nat) (ls : List (List Char)) :
    ∀ idx, (renderLinesFrom h idx ls).length = ls.length := by
  induction ls with
  | nil => intro idx; rfl
  | cons line rest ih =>
      intro idx
      simp [renderLinesFrom, ih (idx + 1)]

/-- Helper: the rendered line at position `i` displays number `idx + i + 1`,
the line's text (a single space for an empty line), and the highlight flag
`highlightLine === idx + i + 1`. -/
theorem renderLinesFrom_getElem (h : Option Nat) (ls : List (List Char)) :
    ∀ idx i, (renderLinesFrom h idx ls)[i]? = (ls[i]?).map fun line =>
      ({ number := idx + i + 1
         text := if line = [] then [' '] else line
         highlighted := h == some (idx + i + 1) } : RenderedLine) := by
  induction ls with
  | nil => intro idx i; simp [renderLinesFrom]
  | cons line rest ih =>
      intro idx i
      cases i with
      | zero => simp [renderLinesFrom]
      | succ n =>
          simp only [renderLinesFrom, List.getElem?_cons_succ]
          rw [ih (idx + 1) n]
          have e : idx + 1 + n = idx + (n + 1) := by omega
          rw [e]

/-- Helper: the displayed numbers of the highlighted rendered lines are
exactly `[k]` when the highlight target `k` falls within the displayed range
`idx+1 .. idx+length`, and empty otherwise (in particular empty when no
highlight target is given). -/
theorem renderLinesFrom_highlighted (h : Option Nat) (ls : List (List Char)) :
    ∀ idx, (((renderLinesFrom h idx ls).filter fun l => l.highlighted).map
        fun l => l.number)
      = (match h with
         | some k => if idx + 1 ≤ k ∧ k ≤ idx + ls.length then [k] else []
         | none => []) := by
  induction ls with
  | nil =>
      intro idx
      cases h with
      | none => simp [renderLinesFrom]
      | some k =>
          simp only [renderLinesFrom, List.filter_nil, List.map_nil,
            List.length_nil]
          rw [if_neg (by omega)]
  | cons line rest ih =>
      intro idx
      cases h with
      | none =>
          simp only [renderLinesFrom, List.filter_cons]
          have hh : ((none : Option Nat) == some (idx + 1)) = false := rfl
          simp only [hh, Bool.false_eq_true, if_false]
          simpa using ih (idx + 1)
      | some k =>
          simp only [renderLinesFrom, List.filter_cons]
          by_cases hk : k = idx + 1
          · subst hk
            have hh : (some (idx + 1) == some (idx + 1)) = true := by simp
            simp only [hh, if_true, List.map_cons]
            have hrest := ih (idx + 1)
            simp only [hrest] at *
            rw [if_neg (by omega), if_pos (by simp)]
          · have hh : (some k == some (idx + 1)) = false := by
              simp [hk]
            simp only [hh, Bool.false_eq_true, if_false]
            have hrest := ih (idx + 1)
            simp only [hrest]
            by_cases hin : idx + 1 + 1 ≤ k ∧ k ≤ idx + 1 + rest.length
            · rw [if_pos hin, if_pos (by simp; omega)]
            · rw [if_neg hin, if_neg (by simp; omega)]

/-- Claim C9: for every non-empty content string and every `highlightLine`
value, `SourceView` renders the newline-split lines in order, numbered from
1, each with its line number and text (an empty line as a single space); the
highlighted lines are exactly the one whose number equals `highlightLine`
when that number is in range, and none for an out-of-range or absent
`highlightLine` — and the render is total (no crash). -/
theorem sourceView_renders_lines (c : String) (h : Option Nat) (hc : c ≠ "") :
    ∃ ls, sourceView (some c) h = SourceRender.lines ls ∧
      ls.length = (splitLines c.data).length ∧
      (∀ i, ls[i]? = ((splitLines c.data)[i]?).map fun line =>
        ({ number := i + 1
           text := if line = [] then [' '] else line
           highlighted := h == some (i + 1) } : RenderedLine)) ∧
      ((ls.filter fun l => l.highlighted).map fun l => l.number)
        = (match h with
           | some k => if 1 ≤ k ∧ k ≤ ls.length then [k] else []
           | none => []) := by
  refine ⟨renderLinesFrom h 0 (splitLines c.data), ?_, ?_, ?_, ?_⟩
  · simp [sourceView, hc]
  · exact renderLinesFrom_length h _ 0
  · intro i
    simpa using renderLinesFrom_getElem h (splitLines c.data) 0 i
  · cases h with
    | none => simpa using renderLinesFrom_highlighted none (splitLines c.data) 0
    | some k =>
        have hh := renderLinesFrom_highlighted (some k) (splitLines c.data) 0
        simpa [renderLinesFrom_length] using hh

/-- Witness for C9: content `"one\ntwo"` with highlight line 2 renders two
lines with exactly line 2 highlighted. -/
theorem sourceView_renders_lines_witness :
    ("one\ntwo" ≠ "") ∧
    ∃ ls, sourceView (some "one\ntwo") (some 2) = SourceRender.lines ls ∧
      ls.length = 2 ∧
      ((ls.filter fun l => l.highlighted).map fun l => l.number) = [2] := by
  refine ⟨by decide, ?_⟩
  obtain ⟨ls, h1, h2, _, h4⟩ :=
    sourceView_renders_lines "one\ntwo" (some 2) (by decide)
  refine ⟨ls, h1, ?_, ?_⟩
  · rw [h2]
    rfl
  · rw [h4, h2]
    decide

end CpgExplorer
